import Mathlib

/-!
A shallow embedding, in Lean 4, of the decoding core of the libfc IPFIX
library, together with proofs about it.

The embedding covers:
  * `BasicOctetArray` and its `copy_content` (src/lib/BasicOctetArray.cpp);
  * information elements, decode-plan decisions, the `DecodePlan`
    constructor with its skip-coalescing pass, and `DecodePlan::execute`
    with `decode_varlen_length` (src/IPFIXContentHandler.cpp);
  * the wire-template registry manipulation of
    `PlacementContentHandler::end_template_record`, the data-set decoding
    loop of `PlacementContentHandler::start_data_set`, and
    `wire_template_min_length` (src/lib/MessageStreamParser.h);
  * the message-level framing of `IPFIXMessageStreamParser::parse` over a
    `BufferInputSource`.

Machine bytes are modelled as `Nat` values (< 256 on real wires); buffers
are `List Nat`; byte-addressed destination memory is a function
`Nat → Nat`; C++ pointer identity of canonical `InfoElement`s is modelled
by structural equality of immutable `InfoElement` records, and pointer
identity of templates by a numeric `id` tag.  Fallible C++ code (functions
that may `throw FormatError` or report fatal errors) is modelled with
`Except`.
-/

namespace libfc

/-! ## Constants

Wire-format constants (values fixed by the IPFIX wire format, RFC 7011 /
RFC 5101, and used throughout the source as `Constants.h` members). -/

def kIpfixVarlen : Nat := 65535
def kUcharMax : Nat := 255

inductive IETypeKind where
  | kOctetArray
  | kUnsigned8 | kUnsigned16 | kUnsigned32 | kUnsigned64
  | kSigned8 | kSigned16 | kSigned32 | kSigned64
  | kFloat32 | kFloat64
  | kBoolean
  | kMacAddress
  | kString
  | kDateTimeSeconds | kDateTimeMilliseconds
  | kDateTimeMicroseconds | kDateTimeNanoseconds
  | kIpv4Address | kIpv6Address
  deriving DecidableEq, Repr

structure InfoElement where
  pen : Nat
  number : Nat
  ietype : IETypeKind
  len : Nat
  deriving DecidableEq, Repr

/-- Source `InfoElement::matches` (src/lib/InfoElement.h): two IEs match iff
their number and PEN coincide, independent of length and type. -/
def InfoElement.ieMatches (a b : InfoElement) : Bool :=
  a.pen == b.pen && a.number == b.number

/-! ## BasicOctetArray (src/lib/BasicOctetArray.cpp)

`buf` holds `capacity` bytes; a fresh `new unsigned char[capacity]`
allocation is modelled as all-zero bytes (the C++ contents are
indeterminate; no claim depends on bytes past `length`). -/

structure BasicOctetArray where
  buf : List Nat
  length : Nat
  capacity : Nat
  deriving DecidableEq, Repr

def BasicOctetArray.mk0 : BasicOctetArray := ⟨[], 0, 0⟩

def BasicOctetArray.get_length (a : BasicOctetArray) : Nat := a.length

def BasicOctetArray.get_buf (a : BasicOctetArray) : List Nat := a.buf

/-- Source `BasicOctetArray::copy_content`: grow (reallocate) if `buf_length`
exceeds the capacity, then `memcpy` the first `buf_length` bytes of
`new_buf` over the start of `buf` and set `length`. -/
def BasicOctetArray.copy_content (a : BasicOctetArray) (new_buf : List Nat)
    (buf_length : Nat) : BasicOctetArray :=
  let a' : BasicOctetArray :=
    if buf_length > a.capacity then
      { buf := List.replicate buf_length 0, length := a.length,
        capacity := buf_length }
    else a
  { buf := (List.range buf_length).map (fun i => new_buf.getD i 0)
             ++ a'.buf.drop buf_length,
    length := buf_length,
    capacity := a'.capacity }

/-! ## Decode-plan decisions (src/IPFIXContentHandler.cpp, `DecodePlan`) -/

inductive DecisionType where
  | skip_fixlen
  | skip_varlen
  | transfer_fixlen
  | transfer_boolean
  | transfer_fixlen_endianness
  | transfer_fixlen_octets
  | transfer_float_into_double
  | transfer_float_into_double_endianness
  | transfer_varlen
  deriving DecidableEq, Repr

/-- One entry of a compiled `DecodePlan`.  `p` is the destination address
(a raw `void*` in the source); fields that the source leaves
uninitialized for a given decision type default to 0 here.  `wire_ie` is
kept only for error context and is irrelevant to behaviour. -/
structure Decision where
  type : DecisionType
  length : Nat := 0
  destination_size : Nat := 0
  p : Nat := 0
  deriving DecidableEq, Repr

/-- Errors thrown as `FormatError` by `report_error` in the source; each
constructor names the `report_error` site, standing in for the formatted
message string. -/
inductive FormatErr where
  | nullIEType
  | lenGtNativeSize
  | macNot6Octets
  | ipv4Not4Octets
  | ipv6Not16Octets
  | unknownIEType
  | varlenFirstOctetBeyondBuffer
  | varlenThreeByteBeyondBuffer
  | varlenPayloadBeyondBuffer
  | boolEncodingWrong
  | fixlenIELengthBeyondBuffer
  deriving DecidableEq, Repr

/-! ## Placement templates

The caller's mapping from `InfoElement` to destination address. -/

/-- Modelled from the spec: `PlacementTemplate::lookup_placement` is
declared but its implementation is not under src/; per spec section 4.6
it is an ordered mapping from InfoElement (pen+number key) to a raw
destination address, and `lookup_placement(ie, out_address, out_size)`
returns whether the placement has an entry for `ie` (match by pen+number
only), yielding the registered destination address. -/
def lookup_placement (pt : List (InfoElement × Nat)) (ie : InfoElement) :
    Option Nat :=
  (pt.find? (fun e => e.1.ieMatches ie)).map (fun e => e.2)

/-! ## DecodePlan compiler (the `DecodePlan::DecodePlan` constructor)

The source selects endianness-converting transfers on little-endian
hosts (`IPFIX_LITTLE_ENDIAN`); the model fixes the little-endian host
choice. -/

def transfer_fixlen_maybe_endianness : DecisionType :=
  DecisionType.transfer_fixlen_endianness

def transfer_float_into_double_maybe_endianness : DecisionType :=
  DecisionType.transfer_float_into_double_endianness

/-- The per-field body of the `DecodePlan` constructor loop: look the
wire IE up in the placement template and emit a transfer decision by IE
type kind (checking lengths against native destination sizes), or a skip
decision if the placement has no entry. -/
def buildDecision (pt : List (InfoElement × Nat)) (ie : InfoElement) :
    Except FormatErr Decision :=
  match lookup_placement pt ie with
  | some addr =>
    match ie.ietype with
    | IETypeKind.kOctetArray =>
      if ie.len = kIpfixVarlen then
        Except.ok { type := DecisionType.transfer_varlen, p := addr }
      else
        Except.ok { type := DecisionType.transfer_fixlen_octets,
                    length := ie.len, p := addr }
    | IETypeKind.kUnsigned8 =>
      if ie.len > 1 then Except.error FormatErr.lenGtNativeSize
      else Except.ok { type := DecisionType.transfer_fixlen,
                       length := ie.len, destination_size := 1, p := addr }
    | IETypeKind.kUnsigned16 =>
      if ie.len > 2 then Except.error FormatErr.lenGtNativeSize
      else Except.ok { type := transfer_fixlen_maybe_endianness,
                       length := ie.len, destination_size := 2, p := addr }
    | IETypeKind.kUnsigned32 =>
      if ie.len > 4 then Except.error FormatErr.lenGtNativeSize
      else Except.ok { type := transfer_fixlen_maybe_endianness,
                       length := ie.len, destination_size := 4, p := addr }
    | IETypeKind.kUnsigned64 =>
      if ie.len > 8 then Except.error FormatErr.lenGtNativeSize
      else Except.ok { type := transfer_fixlen_maybe_endianness,
                       length := ie.len, destination_size := 8, p := addr }
    | IETypeKind.kSigned8 =>
      if ie.len > 1 then Except.error FormatErr.lenGtNativeSize
      else Except.ok { type := transfer_fixlen_maybe_endianness,
                       length := ie.len, destination_size := 1, p := addr }
    | IETypeKind.kSigned16 =>
      if ie.len > 2 then Except.error FormatErr.lenGtNativeSize
      else Except.ok { type := transfer_fixlen_maybe_endianness,
                       length := ie.len, destination_size := 2, p := addr }
    | IETypeKind.kSigned32 =>
      if ie.len > 4 then Except.error FormatErr.lenGtNativeSize
      else Except.ok { type := transfer_fixlen_maybe_endianness,
                       length := ie.len, destination_size := 4, p := addr }
    | IETypeKind.kSigned64 =>
      if ie.len > 8 then Except.error FormatErr.lenGtNativeSize
      else Except.ok { type := transfer_fixlen_maybe_endianness,
                       length := ie.len, destination_size := 8, p := addr }
    | IETypeKind.kFloat32 =>
      if ie.len > 4 then Except.error FormatErr.lenGtNativeSize
      else Except.ok { type := transfer_fixlen_maybe_endianness,
                       length := ie.len, destination_size := 4, p := addr }
    | IETypeKind.kFloat64 =>
      if ie.len = 4 then
        Except.ok { type := transfer_float_into_double_maybe_endianness,
                    length := ie.len, destination_size := 8, p := addr }
      else if ie.len > 8 then Except.error FormatErr.lenGtNativeSize
      else Except.ok { type := transfer_fixlen_maybe_endianness,
                       length := ie.len, destination_size := 8, p := addr }
    | IETypeKind.kBoolean =>
      if ie.len > 1 then Except.error FormatErr.lenGtNativeSize
      else Except.ok { type := DecisionType.transfer_boolean,
                       length := ie.len, destination_size := 1, p := addr }
    | IETypeKind.kMacAddress =>
      if ie.len ≠ 6 then Except.error FormatErr.macNot6Octets
      else Except.ok { type := DecisionType.transfer_fixlen,
                       length := ie.len, destination_size := 6, p := addr }
    | IETypeKind.kString =>
      if ie.len = kIpfixVarlen then
        Except.ok { type := DecisionType.transfer_varlen, p := addr }
      else
        Except.ok { type := DecisionType.transfer_fixlen_octets,
                    length := ie.len, p := addr }
    | IETypeKind.kDateTimeSeconds =>
      if ie.len > 4 then Except.error FormatErr.lenGtNativeSize
      else Except.ok { type := transfer_fixlen_maybe_endianness,
                       length := ie.len, destination_size := 4, p := addr }
    | IETypeKind.kDateTimeMilliseconds =>
      if ie.len > 8 then Except.error FormatErr.lenGtNativeSize
      else Except.ok { type := transfer_fixlen_maybe_endianness,
                       length := ie.len, destination_size := 8, p := addr }
    | IETypeKind.kDateTimeMicroseconds =>
      if ie.len > 8 then Except.error FormatErr.lenGtNativeSize
      else Except.ok { type := transfer_fixlen_maybe_endianness,
                       length := ie.len, destination_size := 8, p := addr }
    | IETypeKind.kDateTimeNanoseconds =>
      if ie.len > 8 then Except.error FormatErr.lenGtNativeSize
      else Except.ok { type := transfer_fixlen_maybe_endianness,
                       length := ie.len, destination_size := 8, p := addr }
    | IETypeKind.kIpv4Address =>
      if ie.len ≠ 4 then Except.error FormatErr.ipv4Not4Octets
      else Except.ok { type := transfer_fixlen_maybe_endianness,
                       length := ie.len, destination_size := 4, p := addr }
    | IETypeKind.kIpv6Address =>
      if ie.len ≠ 16 then Except.error FormatErr.ipv6Not16Octets
      else Except.ok { type := DecisionType.transfer_fixlen,
                       length := ie.len, destination_size := 16, p := addr }
  | none =>
    if ie.len = kIpfixVarlen then
      Except.ok { type := DecisionType.skip_varlen }
    else
      Except.ok { type := DecisionType.skip_fixlen, length := ie.len }

mutual

/-- The skip-coalescing pass at the end of the `DecodePlan` constructor:
at each `skip_fixlen` decision, sum the maximal run of consecutive
`skip_fixlen` decisions starting there, erase all but the first, and set
its length to the sum.  The source accumulates in a local
`uint16_t length`, so each addition wraps modulo 2^16.
`coalesceRun acc l` is the state while inside a run whose accumulated
length so far is `acc`. -/
def coalesce : List Decision → List Decision
  | [] => []
  | d :: rest =>
    if d.type = DecisionType.skip_fixlen then coalesceRun d.length rest
    else d :: coalesce rest

def coalesceRun (acc : Nat) : List Decision → List Decision
  | [] => [{ type := DecisionType.skip_fixlen, length := acc }]
  | d :: rest =>
    if d.type = DecisionType.skip_fixlen then
      coalesceRun ((acc + d.length) % 65536) rest
    else { type := DecisionType.skip_fixlen, length := acc } :: d
           :: coalesce rest

end

/-- The whole `DecodePlan` constructor: one decision per wire-template
field, then the coalescing pass. -/
def buildPlan (pt : List (InfoElement × Nat)) (wt : List InfoElement) :
    Except FormatErr (List Decision) :=
  (wt.mapM (buildDecision pt)).map coalesce

/-! ## Destination memory

Byte-addressed memory for the fixed-length transfer destinations,
`bool` destinations, `BasicOctetArray*` destinations and `double`
destinations that the caller registers.  A `double` destination written
by `transfer_float_into_double[_endianness]` is represented by the four
source bytes assembled in host order (the float32 → float64 widening in
the source is injective on bit patterns, so nothing is lost). -/

def updateMem (m : Nat → Nat) (a v : Nat) : Nat → Nat :=
  fun x => if x = a then v else m x

/-- Models `memset(q, 0, n)` over byte-addressed memory. -/
def memsetZero (m : Nat → Nat) (q n : Nat) : Nat → Nat :=
  fun x => if q ≤ x ∧ x < q + n then 0 else m x

/-- Models `memcpy(q, buf + src, n)`: copy `n` bytes starting at offset `src` of
`buf` to addresses starting at `q`. -/
def memcpyFromBuf (m : Nat → Nat) (q : Nat) (buf : List Nat) (src n : Nat) :
    Nat → Nat :=
  fun x => if q ≤ x ∧ x < q + n then buf.getD (src + (x - q)) 0 else m x

/-- The byte-reversing loop of `transfer_fixlen_endianness`:
`for (k = 0; k < len; k++) q[k] = cur[len - (k + 1)]`. -/
def endianWrites (m : Nat → Nat) (q : Nat) (buf : List Nat) (cur len : Nat) :
    Nat → Nat :=
  (List.range len).foldl
    (fun mm k => updateMem mm (q + k) (buf.getD (cur + (len - (k + 1))) 0)) m

structure Machine where
  mem : Nat → Nat
  bools : Nat → Bool
  octets : Nat → BasicOctetArray
  floats : Nat → List Nat

def Machine.setBool (m : Machine) (a : Nat) (v : Bool) : Machine :=
  { m with bools := fun x => if x = a then v else m.bools x }

def Machine.setOctets (m : Machine) (a : Nat) (v : BasicOctetArray) :
    Machine :=
  { m with octets := fun x => if x = a then v else m.octets x }

def Machine.setFloat (m : Machine) (a : Nat) (v : List Nat) : Machine :=
  { m with floats := fun x => if x = a then v else m.floats x }

/-! ## `decode_varlen_length` (src/IPFIXContentHandler.cpp) -/

/-- Source `decode_varlen_length(&cur, buf_end)`: cursor and end are offsets
into `buf`; returns the decoded length and the new cursor.  The source
reads one octet `b0`; if `b0 < UCHAR_MAX` (255) the length is `b0` and
one octet is consumed, else two further octets are read in network byte
order and three octets are consumed in total; then the payload is
checked against `buf_end`. -/
def decode_varlen_length (buf : List Nat) (buf_end cur : Nat) :
    Except FormatErr (Nat × Nat) :=
  if cur ≥ buf_end then
    Except.error FormatErr.varlenFirstOctetBeyondBuffer
  else
    let b0 := buf.getD cur 0
    let firstStep : Except FormatErr (Nat × Nat) :=
      if b0 < kUcharMax then
        Except.ok (b0, cur + 1)
      else if cur + 3 > buf_end then
        Except.error FormatErr.varlenThreeByteBeyondBuffer
      else
        Except.ok (buf.getD (cur + 1) 0 * 256 + buf.getD (cur + 2) 0, cur + 3)
    match firstStep with
    | Except.error e => Except.error e
    | Except.ok (ret, cur') =>
      if cur' + ret > buf_end then
        Except.error FormatErr.varlenPayloadBeyondBuffer
      else
        Except.ok (ret, cur')

/-! ## `DecodePlan::execute` (src/IPFIXContentHandler.cpp)

The executor walks the decision list over `buf[cur .. buf_end)`.
`assert`s in the source are compiled-out invariant checks, not error
paths; the model carries no corresponding check (where an assert's
condition can fail, the source, built with NDEBUG, simply proceeds). -/

/-- One step of the `switch` inside `DecodePlan::execute`: process
decision `d` at cursor `cur`, returning the new cursor and machine. -/
def execute_decision (d : Decision) (buf : List Nat) (buf_end : Nat)
    (cur : Nat) (m : Machine) : Except FormatErr (Nat × Machine) :=
  match d.type with
  | DecisionType.skip_fixlen =>
    Except.ok (cur + d.length, m)
  | DecisionType.skip_varlen => do
    let (varlen_length, cur') ← decode_varlen_length buf buf_end cur
    pure (cur' + varlen_length, m)
  | DecisionType.transfer_boolean =>
    let b := buf.getD cur 0
    if b = 1 then Except.ok (cur + 1, m.setBool d.p true)
    else if b = 2 then Except.ok (cur + 1, m.setBool d.p false)
    else Except.error FormatErr.boolEncodingWrong
  | DecisionType.transfer_fixlen =>
    if cur + d.length > buf_end then
      Except.error FormatErr.fixlenIELengthBeyondBuffer
    else
      let mem' := memcpyFromBuf (memsetZero m.mem d.p d.destination_size)
        (d.p + d.destination_size - d.length) buf cur d.length
      Except.ok (cur + d.length, { m with mem := mem' })
  | DecisionType.transfer_fixlen_endianness =>
    if cur + d.length > buf_end then
      Except.error FormatErr.fixlenIELengthBeyondBuffer
    else
      let mem' := endianWrites (memsetZero m.mem d.p d.destination_size)
        d.p buf cur d.length
      Except.ok (cur + d.length, { m with mem := mem' })
  | DecisionType.transfer_fixlen_octets =>
    Except.ok (cur + d.length,
      m.setOctets d.p
        ((m.octets d.p).copy_content (buf.drop cur) d.length))
  | DecisionType.transfer_float_into_double =>
    Except.ok (cur + 4,
      m.setFloat d.p [buf.getD cur 0, buf.getD (cur + 1) 0,
                      buf.getD (cur + 2) 0, buf.getD (cur + 3) 0])
  | DecisionType.transfer_float_into_double_endianness =>
    Except.ok (cur + 4,
      m.setFloat d.p [buf.getD (cur + 3) 0, buf.getD (cur + 2) 0,
                      buf.getD (cur + 1) 0, buf.getD cur 0])
  | DecisionType.transfer_varlen => do
    let (varlen_length, cur') ← decode_varlen_length buf buf_end cur
    pure (cur' + varlen_length,
      m.setOctets d.p
        ((m.octets d.p).copy_content (buf.drop cur') varlen_length))

/-- The decision loop of `execute`, starting at cursor `cur`. -/
def executeFrom (plan : List Decision) (buf : List Nat) (buf_end : Nat)
    (cur : Nat) (m : Machine) : Except FormatErr (Nat × Machine) :=
  match plan with
  | [] => Except.ok (cur, m)
  | d :: rest => do
    let (cur', m') ← execute_decision d buf buf_end cur m
    executeFrom rest buf buf_end cur' m'

/-- Source `DecodePlan::execute(buf, length)`, decoding one record that starts at
offset `start` of `buf` with `length` octets of data set remaining;
returns the number of octets consumed and the final machine. -/
def execute (plan : List Decision) (buf : List Nat) (start length : Nat)
    (m : Machine) : Except FormatErr (Nat × Machine) := do
  let (cur, m') ← executeFrom plan buf (start + length) start m
  pure (cur - start, m')

/-! ## Wire-template registry and `PlacementContentHandler`
(src/lib/MessageStreamParser.h, `PlacementContentHandler` implementation)

`std::map` registries are modelled as association lists with
update-or-insert assignment; `std::set`s as lists of keys.  C++ pointer
identity of heap-allocated templates is modelled by a numeric `ptr` tag;
`IETemplate::operator==` compares the element sequences (pointer-wise on
canonical `InfoElement`s, structural here). -/

def mapAssign {α : Type} (m : List (Nat × α)) (k : Nat) (v : α) :
    List (Nat × α) :=
  match m with
  | [] => [(k, v)]
  | (k', v') :: rest =>
    if k' = k then (k, v) :: rest else (k', v') :: mapAssign rest k v

def mapErase {α : Type} (m : List (Nat × α)) (k : Nat) : List (Nat × α) :=
  m.filter (fun e => e.1 ≠ k)

def mapFind {α : Type} (m : List (Nat × α)) (k : Nat) : Option α :=
  (m.find? (fun e => e.1 = k)).map (fun e => e.2)

/-- A heap-allocated `IETemplate` (`MatchTemplate`): `ptr` models the
allocation identity, `ies` the element sequence. -/
structure WireTemplate where
  ptr : Nat
  ies : List InfoElement
  deriving DecidableEq, Repr

/-- Errors reported via `CH_REPORT_ERROR` in the content handler. -/
inductive ChErr where
  | format_error
  | short_message
  | ipfix_basetime
  deriving DecidableEq, Repr

/-- The parts of `PlacementContentHandler`'s state that template-record
processing touches. -/
structure HandlerState where
  observation_domain : Nat
  current_template_id : Nat
  current_field_count : Nat
  current_field_no : Nat
  current_wire_template : Option WireTemplate
  wire_templates : List (Nat × WireTemplate)
  matched_templates : List (Nat × Nat)
  incomplete_template_ids : List Nat
  parse_is_good : Bool
  deriving DecidableEq, Repr

/-- Source `PlacementContentHandler::make_template_key`:
`(observation_domain << 16) + tid`. -/
def make_template_key (s : HandlerState) (tid : Nat) : Nat :=
  s.observation_domain * 65536 + tid

/-- Source `PlacementContentHandler::find_wire_template`. -/
def find_wire_template (s : HandlerState) (id : Nat) : Option WireTemplate :=
  mapFind s.wire_templates (make_template_key s id)

/-- Source `PlacementContentHandler::end_template_record`: for a non-empty
template, consult the registry under the current key; replace a stored
template that differs (erasing the raw `current_template_id` from
`incomplete_template_ids`, deleting the old template, and erasing its
matched-cache entry), install when absent, silently discard a duplicate.
Then check the declared field count, reporting a `format_error` (which
returns before clearing `current_wire_template`).  A `none`
`current_wire_template` is excluded by an assert in the source. -/
def end_template_record (s : HandlerState) : HandlerState × Option ChErr :=
  match s.current_wire_template with
  | none => (s, none)
  | some t =>
    let s1 : HandlerState :=
      if t.ies.length > 0 then
        match find_wire_template s s.current_template_id with
        | some my_wire_template =>
          if my_wire_template.ies ≠ t.ies then
            { s with
              incomplete_template_ids :=
                s.incomplete_template_ids.filter
                  (fun k => k ≠ s.current_template_id),
              wire_templates :=
                mapAssign s.wire_templates
                  (make_template_key s s.current_template_id) t,
              matched_templates :=
                mapErase s.matched_templates my_wire_template.ptr }
          else s
        | none =>
          { s with
            wire_templates :=
              mapAssign s.wire_templates
                (make_template_key s s.current_template_id) t }
      else s
    if s1.current_field_count ≠ s1.current_field_no then
      ({ s1 with parse_is_good := false }, some ChErr.format_error)
    else
      ({ s1 with current_wire_template := none }, none)

/-! ## Data-set decoding loop (`PlacementContentHandler::start_data_set`) -/

/-- Source `PlacementContentHandler::wire_template_min_length`: sum of the
lengths of the non-VARLEN fields (a VARLEN field contributes nothing),
accumulated in a `uint16_t min` so each addition wraps modulo 2^16. -/
def wire_template_min_length (t : List InfoElement) : Nat :=
  t.foldl (fun min ie => if ie.len ≠ kIpfixVarlen then (min + ie.len) % 65536
    else min) 0

inductive PlacementEvent where
  | start_placement
  | end_placement
  deriving DecidableEq, Repr

/-- Computes `a - b` in `uint16_t` arithmetic (wraps modulo 2^16), for the
`length -= consumed` update in the record loop. -/
def usub16 (a b : Nat) : Nat := (a + 65536 - b % 65536) % 65536

/-- The record loop at the end of `start_data_set`: while `cur < buf_end`
and at least `min_length` octets remain, bracket one `plan.execute` with
the `start_placement` / `end_placement` callbacks and advance by the
consumed count.  `buf_end` is fixed at entry (`buf + length` with the
initial length); `cur` and `length` vary.  `fuel` bounds the iteration
count (the C++ `while` loop can fail to progress when a record consumes
zero octets). -/
def data_set_loop (plan : List Decision) (buf : List Nat) (buf_end : Nat)
    (min_length : Nat) :
    Nat → Nat → Nat → Machine →
      Except FormatErr (List PlacementEvent × Nat × Nat × Machine)
  | 0, cur, length, m => Except.ok ([], cur, length, m)
  | fuel + 1, cur, length, m =>
    if cur < buf_end ∧ min_length ≤ length then do
      let (consumed, m') ← execute plan buf cur length m
      let (evs, cur', length', m'') ←
        data_set_loop plan buf buf_end min_length fuel (cur + consumed)
          (usub16 length consumed) m'
      pure (PlacementEvent.start_placement :: PlacementEvent.end_placement
              :: evs, cur', length', m'')
    else Except.ok ([], cur, length, m)

/-! ## IPFIX message framing
(`IPFIXMessageStreamParser::parse` over a `BufferInputSource`)

`BufferInputSource::read(result, n)` copies
`min(n, len - off)` bytes from position `off` of the backing buffer and
advances; the parser reads a 16-octet header, validates the version,
announces the message, reads the body (requesting
`message_size - kIpfixMessageHeaderLen` bytes — a `size_t` subtraction
that wraps modulo 2^64 when `message_size < 16`), then walks the sets.
Each `start_* / end_*` callback pair is modelled as one event carrying
the set payload. -/

/-- An all-zero machine, used to instantiate theorems on concrete
inputs. -/
def machine0 : Machine :=
  ⟨fun _ => 0, fun _ => false, fun _ => BasicOctetArray.mk0, fun _ => []⟩

/-- Builds `n` bracketed `start_placement` / `end_placement` callback pairs. -/
def pairEvents : Nat → List PlacementEvent
  | 0 => []
  | n + 1 => PlacementEvent.start_placement :: PlacementEvent.end_placement
      :: pairEvents n

/-- Total length skipped by the `skip_fixlen` decisions of a plan. -/
def skipLengthSum (l : List Decision) : Nat :=
  ((l.filter (fun d => d.type = DecisionType.skip_fixlen)).map
    (fun d => d.length)).sum

/-- Concrete information elements for the template-replacement input of
the `incomplete_template_ids` analysis. -/
def c3_ie_a : InfoElement := ⟨0, 1, IETypeKind.kUnsigned32, 4⟩
def c3_ie_b : InfoElement := ⟨0, 2, IETypeKind.kUnsigned32, 4⟩

/-- The failing input: observation domain 1, template id 256; the stored
template (pointer 1) has a matched-cache entry and an outstanding
incomplete mark `make_template_key 256 = 65792`; the newly parsed
template (pointer 2) differs. -/
def c3_state : HandlerState :=
  { observation_domain := 1, current_template_id := 256,
    current_field_count := 1, current_field_no := 1,
    current_wire_template := some ⟨2, [c3_ie_b]⟩,
    wire_templates := [(65792, ⟨1, [c3_ie_a]⟩)],
    matched_templates := [(1, 7)],
    incomplete_template_ids := [65792],
    parse_is_good := true }

/-- The machine produced by the concrete C2 witness transfer. -/
def machineW : Machine :=
  { machine0 with mem :=
      endianWrites (memsetZero machine0.mem 100 4) 100 [18, 52] 0 2 }


/-! ## Helper lemmas -/

lemma range_map_getD (nb : List Nat) (n : Nat) (h : n ≤ nb.length) :
    (List.range n).map (fun i => nb.getD i 0) = nb.take n := by
  induction n with
  | zero => simp
  | succ k ih =>
    have hk : k ≤ nb.length := Nat.le_of_succ_le h
    have hlt : k < nb.length := Nat.lt_of_succ_le h
    rw [List.range_succ, List.map_append, ih hk, List.take_succ]
    simp [List.getD, List.get?_eq_getElem?, List.getElem?_eq_getElem hlt]

lemma copy_content_capacity (a : BasicOctetArray) (nb : List Nat) (n : Nat) :
    (a.copy_content nb n).capacity = if n > a.capacity then n else a.capacity := by
  unfold BasicOctetArray.copy_content
  split <;> simp_all

/-- C10 helper: capacity is monotone across any sequence of
`copy_content` calls. -/
lemma copy_content_fold_capacity (calls : List (List Nat × Nat)) :
    ∀ a : BasicOctetArray,
      a.capacity ≤
        (calls.foldl (fun x c => x.copy_content c.1 c.2) a).capacity := by
  induction calls with
  | nil => intro a; simp
  | cons c rest ih =>
    intro a
    refine le_trans ?_ (ih (a.copy_content c.1 c.2))
    rw [copy_content_capacity]
    split <;> omega

/-- C10: `copy_content` sets the length, copies the content, and manages
capacity monotonically: after `copy_content(new_buf, n)` the length is
`n` and the first `n` buffer bytes are those of `new_buf`; a call never
shrinks the capacity, leaves it unchanged whenever `n` fits, and any
sequence of calls only ever grows it. -/
theorem copy_content_spec (a : BasicOctetArray) (nb : List Nat) (n : Nat) :
    (a.copy_content nb n).get_length = n
    ∧ (n ≤ nb.length →
        ((a.copy_content nb n).get_buf).take n = nb.take n)
    ∧ a.capacity ≤ (a.copy_content nb n).capacity
    ∧ (n ≤ a.capacity → (a.copy_content nb n).capacity = a.capacity)
    ∧ (∀ calls : List (List Nat × Nat),
        a.capacity ≤
          ((calls.foldl (fun x c => x.copy_content c.1 c.2)
            (a.copy_content nb n)).capacity)) := by
  refine ⟨rfl, ?_, ?_, ?_, ?_⟩
  · intro h
    unfold BasicOctetArray.copy_content BasicOctetArray.get_buf
    have hlen : ((List.range n).map (fun i => nb.getD i 0)).length = n := by
      simp
    rw [List.take_append_of_le_length (by omega), List.take_of_length_le (by omega)]
    exact range_map_getD nb n h
  · rw [copy_content_capacity]; split <;> omega
  · intro h; rw [copy_content_capacity]; split <;> omega
  · intro calls
    refine le_trans ?_ (copy_content_fold_capacity calls _)
    rw [copy_content_capacity]; split <;> omega

/-- C10 witness: a concrete `copy_content` call satisfying every
hypothesis of `copy_content_spec`. -/
theorem copy_content_spec_witness :
    ((BasicOctetArray.mk0.copy_content [7, 8, 9] 2).get_length = 2)
    ∧ ((BasicOctetArray.mk0.copy_content [7, 8, 9] 2).get_buf).take 2
        = [7, 8] := by
  have h := copy_content_spec BasicOctetArray.mk0 [7, 8, 9] 2
  exact ⟨h.1, (h.2.1 (by decide)).trans (by decide)⟩

/-- C9: a template record that declares zero fields is never installed:
`end_template_record` leaves the wire-template registry untouched, so
the entry under the current key — indeed under every key — is exactly
what it was before, and any previously stored template is retained. -/
theorem empty_template_not_installed (s : HandlerState) (t : WireTemplate)
    (h1 : s.current_wire_template = some t) (h2 : t.ies = []) :
    (end_template_record s).1.wire_templates = s.wire_templates
    ∧ (∀ id, find_wire_template (end_template_record s).1 id
        = find_wire_template s id) := by
  have hz : ¬ t.ies.length > 0 := by simp [h2]
  unfold end_template_record
  rw [h1]
  simp only [if_neg hz]
  constructor
  · split <;> rfl
  · intro id
    unfold find_wire_template make_template_key
    split <;> rfl

/-- C9 witness: a concrete state with an empty current template and a
previously stored template, which `end_template_record` retains. -/
theorem empty_template_not_installed_witness :
    (end_template_record
      { observation_domain := 0, current_template_id := 300,
        current_field_count := 0, current_field_no := 0,
        current_wire_template := some ⟨9, []⟩,
        wire_templates := [(300, ⟨1, [⟨0, 8, IETypeKind.kUnsigned32, 4⟩]⟩)],
        matched_templates := [], incomplete_template_ids := [],
        parse_is_good := true }).1.wire_templates
    = [(300, ⟨1, [⟨0, 8, IETypeKind.kUnsigned32, 4⟩]⟩)] :=
  (empty_template_not_installed _ ⟨9, []⟩ rfl rfl).1

/-! ## C3: template replacement and the `incomplete_template_ids` mark

`end_template_record` installs a new template when none is stored,
silently discards an equal duplicate keeping the old pointer, and on a
differing redefinition evicts the old template and its matched-cache
entry — but the `incomplete_template_ids.erase(current_template_id)`
call passes the raw 16-bit template id to a set whose members are
`make_template_key` values (`(domain << 16) + tid`, cf. the insert in
`match_placement_template`), so for any nonzero observation domain the
outstanding mark is *not* cleared. -/

/-- C3: at the failing input, the redefinition is processed as the claim
says — the old template is evicted, the new one installed under the key,
and the old matched-cache entry erased — but the outstanding
`incomplete_template_ids` mark 65792 survives, because the code erases
the raw template id 256 instead of the key. -/
theorem end_template_record_mark_not_cleared :
    (end_template_record c3_state).1.wire_templates = [(65792, ⟨2, [c3_ie_b]⟩)]
    ∧ (end_template_record c3_state).1.matched_templates = []
    ∧ (end_template_record c3_state).2 = none
    ∧ (end_template_record c3_state).1.incomplete_template_ids = [65792] := by
  decide

/-- C6: a `transfer_boolean` decision maps wire octet 1 to `true` and
wire octet 2 to `false`, consuming exactly one octet; any other octet
value is a `FormatError` (`"bool encoding wrong"`) raised before the
boolean destination is written. -/
theorem transfer_boolean_spec (d : Decision) (buf : List Nat)
    (buf_end cur : Nat) (m : Machine)
    (h : d.type = DecisionType.transfer_boolean) :
    (buf.getD cur 0 = 1 →
      execute_decision d buf buf_end cur m
        = Except.ok (cur + 1, m.setBool d.p true))
    ∧ (buf.getD cur 0 = 2 →
      execute_decision d buf buf_end cur m
        = Except.ok (cur + 1, m.setBool d.p false))
    ∧ (buf.getD cur 0 ≠ 1 → buf.getD cur 0 ≠ 2 →
      execute_decision d buf buf_end cur m
        = Except.error FormatErr.boolEncodingWrong) := by
  unfold execute_decision
  rw [h]
  refine ⟨fun h1 => ?_, fun h2 => ?_, fun h1 h2 => ?_⟩
  · rw [if_pos h1]
  · rw [if_neg (by rw [h2]; omega), if_pos h2]
  · rw [if_neg h1, if_neg h2]

/-- C6 witness: decoding the three wire octet values 1, 2 and 3 at a
concrete boolean decision. -/
theorem transfer_boolean_spec_witness :
    (execute_decision ⟨DecisionType.transfer_boolean, 1, 1, 5⟩ [1] 1 0 machine0
      = Except.ok (1, machine0.setBool 5 true))
    ∧ (execute_decision ⟨DecisionType.transfer_boolean, 1, 1, 5⟩ [2] 1 0
        machine0 = Except.ok (1, machine0.setBool 5 false))
    ∧ (execute_decision ⟨DecisionType.transfer_boolean, 1, 1, 5⟩ [3] 1 0
        machine0 = Except.error FormatErr.boolEncodingWrong) :=
  ⟨(transfer_boolean_spec _ [1] 1 0 machine0 rfl).1 rfl,
   (transfer_boolean_spec _ [2] 1 0 machine0 rfl).2.1 rfl,
   (transfer_boolean_spec _ [3] 1 0 machine0 rfl).2.2 (by decide) (by decide)⟩

/-- C5: `decode_varlen_length` reads one octet `b0`; if `b0 < 255` the
length is `b0` with exactly one octet consumed, otherwise exactly three
octets are consumed and the length is `b1 * 256 + b2` (accepted also for
values below 255); in each case, before any payload octet is consumed,
the payload is checked against `buf_end` and a `FormatError` raised when
it would cross the end of the buffer (and likewise when the one or three
length octets themselves would). -/
theorem decode_varlen_length_spec (buf : List Nat) (buf_end cur : Nat) :
    (cur ≥ buf_end →
      decode_varlen_length buf buf_end cur
        = Except.error FormatErr.varlenFirstOctetBeyondBuffer)
    ∧ (cur < buf_end → buf.getD cur 0 < kUcharMax →
      decode_varlen_length buf buf_end cur
        = if cur + 1 + buf.getD cur 0 > buf_end then
            Except.error FormatErr.varlenPayloadBeyondBuffer
          else Except.ok (buf.getD cur 0, cur + 1))
    ∧ (cur < buf_end → ¬ buf.getD cur 0 < kUcharMax →
      decode_varlen_length buf buf_end cur
        = if cur + 3 > buf_end then
            Except.error FormatErr.varlenThreeByteBeyondBuffer
          else if cur + 3 + (buf.getD (cur + 1) 0 * 256 + buf.getD (cur + 2) 0)
              > buf_end then
            Except.error FormatErr.varlenPayloadBeyondBuffer
          else Except.ok (buf.getD (cur + 1) 0 * 256 + buf.getD (cur + 2) 0,
            cur + 3)) := by
  unfold decode_varlen_length
  refine ⟨fun h => ?_, fun h hb => ?_, fun h hb => ?_⟩
  · rw [if_pos h]
  · rw [if_neg (by omega : ¬ cur ≥ buf_end)]
    simp only [if_pos hb]
  · rw [if_neg (by omega : ¬ cur ≥ buf_end)]
    simp only [if_neg hb]
    by_cases h3 : cur + 3 > buf_end
    · simp only [if_pos h3]
    · simp only [if_neg h3]

/-- C5 witness: the one-octet form, the three-octet form for a length
below 255 and for 256, and a payload overrun, at concrete buffers. -/
theorem decode_varlen_length_spec_witness :
    (decode_varlen_length [3, 65, 66, 67] 4 0 = Except.ok (3, 1))
    ∧ (decode_varlen_length [255, 0, 5, 1, 2, 3, 4, 5] 8 0
        = Except.ok (5, 3))
    ∧ (decode_varlen_length [4, 65] 2 0
        = Except.error FormatErr.varlenPayloadBeyondBuffer) :=
  ⟨((decode_varlen_length_spec [3, 65, 66, 67] 4 0).2.1 (by decide)
      (by decide)).trans (by rfl),
   ((decode_varlen_length_spec [255, 0, 5, 1, 2, 3, 4, 5] 8 0).2.2 (by decide)
      (by decide)).trans (by rfl),
   ((decode_varlen_length_spec [4, 65] 2 0).2.1 (by decide)
      (by decide)).trans (by rfl)⟩

/-! ## C4: the data-set record loop and `wire_template_min_length` -/

lemma except_bind_ok {α β ε : Type} (x : α) (f : α → Except ε β) :
    (Except.ok x >>= f) = f x := rfl

lemma except_bind_error {α β ε : Type} (e : ε) (f : α → Except ε β) :
    ((Except.error e : Except ε α) >>= f) = Except.error e := rfl

lemma wire_template_min_length_foldl (t : List InfoElement) :
    ∀ acc : Nat, acc < 65536 →
      t.foldl (fun min ie => if ie.len ≠ kIpfixVarlen then
          (min + ie.len) % 65536 else min) acc
      = (acc + ((t.map fun ie => if ie.len = kIpfixVarlen then 0
          else ie.len).sum)) % 65536 := by
  induction t with
  | nil =>
    intro acc hacc
    simp only [List.foldl_nil, List.map_nil, List.sum_nil]
    omega
  | cons ie rest ih =>
    intro acc hacc
    simp only [List.foldl_cons, List.map_cons, List.sum_cons]
    by_cases hv : ie.len = kIpfixVarlen
    · rw [if_neg (fun hc => hc hv), if_pos hv, ih acc hacc]
      omega
    · rw [if_pos hv, if_neg hv,
        ih ((acc + ie.len) % 65536) (Nat.mod_lt _ (by omega))]
      omega

/-- Unfolding the record loop one iteration. -/
lemma data_set_loop_succ (plan : List Decision) (buf : List Nat)
    (buf_end min_length fuel cur length : Nat) (m : Machine) :
    data_set_loop plan buf buf_end min_length (fuel + 1) cur length m
    = if cur < buf_end ∧ min_length ≤ length then
        (execute plan buf cur length m >>= fun r =>
          (data_set_loop plan buf buf_end min_length fuel (cur + r.1)
            (usub16 length r.1) r.2).map
            (fun z => (PlacementEvent.start_placement
              :: PlacementEvent.end_placement :: z.1, z.2)))
      else Except.ok ([], cur, length, m) := by
  by_cases hguard : cur < buf_end ∧ min_length ≤ length
  · simp only [data_set_loop, if_pos hguard]
    cases hex : execute plan buf cur length m with
    | error e => rfl
    | ok r =>
      obtain ⟨c, m'⟩ := r
      show (data_set_loop plan buf buf_end min_length fuel (cur + c)
            (usub16 length c) m' >>= fun z =>
            pure (PlacementEvent.start_placement
              :: PlacementEvent.end_placement :: z.1, z.2.1, z.2.2.1, z.2.2.2))
        = (data_set_loop plan buf buf_end min_length fuel (cur + c)
            (usub16 length c) m').map
            (fun z => (PlacementEvent.start_placement
              :: PlacementEvent.end_placement :: z.1, z.2))
      cases hrec : data_set_loop plan buf buf_end min_length fuel (cur + c)
          (usub16 length c) m' with
      | error e => rfl
      | ok z => obtain ⟨evs, cur', length', m''⟩ := z; rfl
  · simp only [data_set_loop, if_neg hguard]

/-- C4 counterexample: the claim defines `minlen` as the sum of
`(VARLEN ? 1 : len)`, but `wire_template_min_length` — the function
guarding the record loop — differs twice over: a VARLEN field
contributes nothing (on a template holding one VARLEN string IE the code
computes 0 where the claim's formula gives 1), and the accumulation is
`uint16_t`, so two fixed 40000-octet fields give 14464, not the sum
80000. -/
theorem wire_template_min_length_counterexample :
    (wire_template_min_length [⟨0, 82, IETypeKind.kString, kIpfixVarlen⟩]
      ≠ (([⟨0, 82, IETypeKind.kString, kIpfixVarlen⟩] : List InfoElement).map
          (fun ie => if ie.len = kIpfixVarlen then 1 else ie.len)).sum)
    ∧ wire_template_min_length [⟨0, 1, IETypeKind.kOctetArray, 40000⟩,
        ⟨0, 2, IETypeKind.kOctetArray, 40000⟩] = 14464
    ∧ (14464 : Nat) ≠ 40000 + 40000 := by
  refine ⟨by decide, by decide, by decide⟩

/-- C4 (amended): `wire_template_min_length` is the sum over the
template's fields of `(VARLEN ? 0 : len)`, reduced modulo 2^16 by the
`uint16_t` accumulation; the record loop stops as soon as
`cur < buf_end ∧ minlen ≤ remaining` fails, and otherwise brackets
exactly one `plan.execute` between a `start_placement` and an
`end_placement` callback, advancing the cursor by the consumed count
(and decreasing the remaining length by it, in `uint16_t` arithmetic);
consequently every successful run emits a balanced sequence of
`start_placement`/`end_placement` pairs. -/
theorem data_set_loop_spec :
    (∀ t : List InfoElement,
      wire_template_min_length t
        = ((t.map fun ie => if ie.len = kIpfixVarlen then 0
            else ie.len).sum) % 65536)
    ∧ (∀ (plan : List Decision) (buf : List Nat)
        (buf_end min_length fuel cur length : Nat) (m : Machine),
        ¬ (cur < buf_end ∧ min_length ≤ length) →
        data_set_loop plan buf buf_end min_length fuel cur length m
          = Except.ok ([], cur, length, m))
    ∧ (∀ (plan : List Decision) (buf : List Nat)
        (buf_end min_length fuel cur length : Nat) (m : Machine)
        (consumed : Nat) (m2 : Machine),
        cur < buf_end → min_length ≤ length →
        execute plan buf cur length m = Except.ok (consumed, m2) →
        data_set_loop plan buf buf_end min_length (fuel + 1) cur length m
          = (data_set_loop plan buf buf_end min_length fuel (cur + consumed)
              (usub16 length consumed) m2).map
              (fun z => (PlacementEvent.start_placement
                :: PlacementEvent.end_placement :: z.1, z.2)))
    ∧ (∀ (plan : List Decision) (buf : List Nat)
        (buf_end min_length fuel cur length : Nat) (m : Machine)
        (evs : List PlacementEvent)
        (rest : Nat × Nat × Machine),
        data_set_loop plan buf buf_end min_length fuel cur length m
          = Except.ok (evs, rest) →
        ∃ n, evs = pairEvents n) := by
  refine ⟨?_, ?_, ?_, ?_⟩
  · intro t
    unfold wire_template_min_length
    rw [wire_template_min_length_foldl t 0 (by omega)]
    omega
  · intro plan buf buf_end min_length fuel cur length m hguard
    cases fuel with
    | zero => rfl
    | succ fuel => rw [data_set_loop_succ, if_neg hguard]
  · intro plan buf buf_end min_length fuel cur length m consumed m2 h1 h2 hex
    rw [data_set_loop_succ, if_pos ⟨h1, h2⟩, hex, except_bind_ok]
  · intro plan buf
    intro buf_end min_length fuel
    induction fuel with
    | zero =>
      intro cur length m evs rest h
      refine ⟨0, ?_⟩
      simp only [data_set_loop] at h
      injection h with h'
      exact (congrArg Prod.fst h').symm
    | succ fuel ih =>
      intro cur length m evs rest h
      rw [data_set_loop_succ] at h
      by_cases hguard : cur < buf_end ∧ min_length ≤ length
      · rw [if_pos hguard] at h
        cases hex : execute plan buf cur length m with
        | error e =>
          rw [hex, except_bind_error] at h
          exact absurd h (by simp)
        | ok r =>
          rw [hex, except_bind_ok] at h
          cases hrec : data_set_loop plan buf buf_end min_length fuel
              (cur + r.1) (usub16 length r.1) r.2 with
          | error e => rw [hrec] at h; exact absurd h (by simp [Except.map])
          | ok z =>
            rw [hrec] at h
            obtain ⟨n, hn⟩ := ih (cur + r.1) (usub16 length r.1) r.2 z.1 z.2
              (by rw [hrec])
            refine ⟨n + 1, ?_⟩
            simp only [Except.map] at h
            injection h with h'
            have hfst : PlacementEvent.start_placement
                :: PlacementEvent.end_placement :: z.1 = evs :=
              congrArg Prod.fst h'
            rw [← hfst, hn]
            rfl
      · rw [if_neg hguard] at h
        refine ⟨0, ?_⟩
        injection h with h'
        exact (congrArg Prod.fst h').symm

/-- C4 witness: the loop's stopping condition at a concrete state with
no data left, via `data_set_loop_spec`. -/
theorem data_set_loop_spec_witness :
    data_set_loop [] [] 0 0 5 0 0 machine0 = Except.ok ([], 0, 0, machine0) :=
  data_set_loop_spec.2.1 [] [] 0 0 5 0 0 machine0 (by decide)

/-! ## C2: reduced-length fixed transfers -/

lemma updateMem_eq (m : Nat → Nat) (av v x : Nat) :
    updateMem m av v x = if x = av then v else m x := rfl

lemma endianWrites_aux (q : Nat) (buf : List Nat) (cur L : Nat) :
    ∀ (n : Nat) (m : Nat → Nat) (a : Nat),
      ((List.range n).foldl
        (fun mm k => updateMem mm (q + k) (buf.getD (cur + (L - (k + 1))) 0))
        m) a
      = if q ≤ a ∧ a < q + n then buf.getD (cur + (L - (a - q + 1))) 0
        else m a := by
  intro n
  induction n with
  | zero =>
    intro m a
    simp only [List.range_zero, List.foldl_nil]
    rw [if_neg (by omega)]
  | succ k ih =>
    intro m a
    rw [List.range_succ, List.foldl_append]
    simp only [List.foldl_cons, List.foldl_nil]
    rw [updateMem_eq]
    by_cases ha : a = q + k
    · rw [if_pos ha, if_pos (by omega)]
      have hk : a - q = k := by omega
      rw [hk]
    · rw [if_neg ha, ih]
      by_cases hin : q ≤ a ∧ a < q + k
      · rw [if_pos hin, if_pos (by omega)]
      · rw [if_neg hin, if_neg (by omega)]

lemma endianWrites_eq (m : Nat → Nat) (q : Nat) (buf : List Nat)
    (cur len a : Nat) :
    endianWrites m q buf cur len a
      = if q ≤ a ∧ a < q + len then buf.getD (cur + (len - (a - q + 1))) 0
        else m a := by
  unfold endianWrites
  exact endianWrites_aux q buf cur len len m a

/-- C2: under the compile-time guarantee `length ≤ destination_size` and
within bounds, a `transfer_fixlen` decision zeroes all
`destination_size` destination bytes and copies the `length` wire bytes
right-justified (`dst[dst_size - len + k] = src[k]`, zeros before), and
a `transfer_fixlen_endianness` decision zeroes the destination and
byte-reverses the wire value to its start (`dst[k] = src[len - 1 - k]`,
zeros after); bytes outside the destination are untouched, and in both
cases a wire value shorter than the destination is zero-extended, never
sign-extended. -/
theorem reduced_length_transfer_spec (d : Decision) (buf : List Nat)
    (buf_end cur : Nat) (m : Machine)
    (hlen : d.length ≤ d.destination_size)
    (hfit : cur + d.length ≤ buf_end) :
    ((d.type = DecisionType.transfer_fixlen
        ∨ d.type = DecisionType.transfer_fixlen_endianness) →
      ∃ r, execute_decision d buf buf_end cur m = Except.ok r)
    ∧ (d.type = DecisionType.transfer_fixlen →
      ∀ cur2 m2, execute_decision d buf buf_end cur m = Except.ok (cur2, m2) →
        cur2 = cur + d.length
        ∧ (∀ k, k < d.destination_size - d.length → m2.mem (d.p + k) = 0)
        ∧ (∀ k, k < d.length →
            m2.mem (d.p + (d.destination_size - d.length) + k)
              = buf.getD (cur + k) 0)
        ∧ (∀ a, a < d.p ∨ d.p + d.destination_size ≤ a →
            m2.mem a = m.mem a))
    ∧ (d.type = DecisionType.transfer_fixlen_endianness →
      ∀ cur2 m2, execute_decision d buf buf_end cur m = Except.ok (cur2, m2) →
        cur2 = cur + d.length
        ∧ (∀ k, k < d.length →
            m2.mem (d.p + k) = buf.getD (cur + (d.length - 1 - k)) 0)
        ∧ (∀ k, d.length ≤ k → k < d.destination_size →
            m2.mem (d.p + k) = 0)
        ∧ (∀ a, a < d.p ∨ d.p + d.destination_size ≤ a →
            m2.mem a = m.mem a)) := by
  have hnot : ¬ cur + d.length > buf_end := by omega
  refine ⟨?_, ?_, ?_⟩
  · rintro (ht | ht) <;>
      (unfold execute_decision; rw [ht]; simp only [if_neg hnot];
        exact ⟨_, rfl⟩)
  · intro ht cur2 m2 heq
    unfold execute_decision at heq
    rw [ht] at heq
    simp only [if_neg hnot] at heq
    injection heq with heq'
    have hcur : cur2 = cur + d.length := (congrArg Prod.fst heq').symm
    have hmem : m2.mem
        = memcpyFromBuf (memsetZero m.mem d.p d.destination_size)
            (d.p + d.destination_size - d.length) buf cur d.length :=
      congrArg Machine.mem (congrArg Prod.snd heq').symm
    refine ⟨hcur, ?_, ?_, ?_⟩
    · intro k hk
      rw [hmem]
      unfold memcpyFromBuf
      rw [if_neg (by omega)]
      unfold memsetZero
      rw [if_pos (by omega)]
    · intro k hk
      rw [hmem]
      unfold memcpyFromBuf
      rw [if_pos (by omega)]
      congr 1
      omega
    · intro a ha
      rw [hmem]
      unfold memcpyFromBuf
      rw [if_neg (by omega)]
      unfold memsetZero
      rw [if_neg (by omega)]
  · intro ht cur2 m2 heq
    unfold execute_decision at heq
    rw [ht] at heq
    simp only [if_neg hnot] at heq
    injection heq with heq'
    have hcur : cur2 = cur + d.length := (congrArg Prod.fst heq').symm
    have hmem : m2.mem
        = endianWrites (memsetZero m.mem d.p d.destination_size)
            d.p buf cur d.length :=
      congrArg Machine.mem (congrArg Prod.snd heq').symm
    refine ⟨hcur, ?_, ?_, ?_⟩
    · intro k hk
      rw [hmem, endianWrites_eq, if_pos (by omega)]
      congr 1
      omega
    · intro k hk1 hk2
      rw [hmem, endianWrites_eq, if_neg (by omega)]
      unfold memsetZero
      rw [if_pos (by omega)]
    · intro a ha
      rw [hmem, endianWrites_eq, if_neg (by omega)]
      unfold memsetZero
      rw [if_neg (by omega)]

/-- C2 witness: a u32 destination at address 100 receiving the 2-octet
wire value `0x1234` (`[18, 52]`) through a `transfer_fixlen_endianness`
decision: the low-order destination bytes (little-endian host) are
`52, 18` and the remaining bytes zero — the value `0x00001234`,
zero-extended. -/
theorem reduced_length_transfer_spec_witness :
    (execute_decision ⟨DecisionType.transfer_fixlen_endianness, 2, 4, 100⟩
        [18, 52] 2 0 machine0 = Except.ok (2, machineW))
    ∧ machineW.mem 100 = 52 ∧ machineW.mem 101 = 18
    ∧ machineW.mem 102 = 0 ∧ machineW.mem 103 = 0 := by
  have hp := (reduced_length_transfer_spec
    ⟨DecisionType.transfer_fixlen_endianness, 2, 4, 100⟩ [18, 52] 2 0 machine0
    (by decide) (by decide)).2.2 rfl 2 machineW rfl
  refine ⟨rfl, ?_, ?_, ?_, ?_⟩
  · simpa using hp.2.1 0 (by decide)
  · simpa using hp.2.1 1 (by decide)
  · simpa using hp.2.2.1 2 (by decide) (by decide)
  · simpa using hp.2.2.1 3 (by decide) (by decide)

/-! ## C1: bounds behaviour of the executor -/

/-- C1 counterexample: compiling a wire template whose single u16 field
is unplaced yields the plan `[skip_fixlen 2]`; executing it over a
buffer with remaining length 1 — a decision that moves the cursor past
`buf + length` — raises no error at all: `execute` returns success with
2 octets consumed (the `assert(cur + i->length <= buf_end)` in the
source is not an error path). -/
theorem execute_bounds_counterexample :
    buildPlan [] [⟨0, 5, IETypeKind.kUnsigned16, 2⟩]
      = Except.ok [⟨DecisionType.skip_fixlen, 2, 0, 0⟩]
    ∧ (execute [⟨DecisionType.skip_fixlen, 2, 0, 0⟩]
        [0] 0 1 machine0).map Prod.fst
      = Except.ok 2 :=
  ⟨rfl, rfl⟩

/-- C1 (amended): only the fixed-length value transfers
(`transfer_fixlen`, `transfer_fixlen_endianness`) and the varlen-length
decodes (`skip_varlen`, `transfer_varlen`) raise a fatal `FormatError`
when the data would run past `buf + length`; for those, the error is
raised instead of reading beyond the buffer, and a successfully decoded
varlen length never lets the payload cross the buffer end.  (Fixed-length
skips, boolean transfers, fixed-length octet copies and float32 reads
are guarded only by assertions.) -/
theorem execute_bounds_spec (d : Decision) (buf : List Nat)
    (buf_end cur : Nat) (m : Machine) :
    ((d.type = DecisionType.transfer_fixlen
        ∨ d.type = DecisionType.transfer_fixlen_endianness) →
      cur + d.length > buf_end →
      execute_decision d buf buf_end cur m
        = Except.error FormatErr.fixlenIELengthBeyondBuffer)
    ∧ ((d.type = DecisionType.skip_varlen
        ∨ d.type = DecisionType.transfer_varlen) →
      ∀ e, decode_varlen_length buf buf_end cur = Except.error e →
      execute_decision d buf buf_end cur m = Except.error e)
    ∧ (∀ ret cur',
      decode_varlen_length buf buf_end cur = Except.ok (ret, cur') →
      cur < buf_end ∧ cur' + ret ≤ buf_end) := by
  refine ⟨?_, ?_, ?_⟩
  · rintro (ht | ht) hgt <;>
      (unfold execute_decision; rw [ht]; simp only [if_pos hgt])
  · rintro (ht | ht) e he <;>
      (unfold execute_decision; rw [ht, he]; rfl)
  · intro ret cur' h
    unfold decode_varlen_length at h
    by_cases hcur : cur ≥ buf_end
    · rw [if_pos hcur] at h
      simp at h
    · rw [if_neg hcur] at h
      by_cases hb : buf.getD cur 0 < kUcharMax
      · simp only [if_pos hb] at h
        by_cases hpay : cur + 1 + buf.getD cur 0 > buf_end
        · rw [if_pos hpay] at h
          simp at h
        · rw [if_neg hpay] at h
          injection h with h'
          have h1 : buf.getD cur 0 = ret := congrArg Prod.fst h'
          have h2 : cur + 1 = cur' := congrArg Prod.snd h'
          omega
      · simp only [if_neg hb] at h
        by_cases h3 : cur + 3 > buf_end
        · simp only [if_pos h3] at h
          exact absurd h (by simp)
        · simp only [if_neg h3] at h
          by_cases hpay : cur + 3
              + (buf.getD (cur + 1) 0 * 256 + buf.getD (cur + 2) 0)
              > buf_end
          · rw [if_pos hpay] at h
            simp at h
          · rw [if_neg hpay] at h
            injection h with h'
            have h1 : buf.getD (cur + 1) 0 * 256 + buf.getD (cur + 2) 0 = ret :=
              congrArg Prod.fst h'
            have h2 : cur + 3 = cur' := congrArg Prod.snd h'
            omega

/-- C1 witness: a `transfer_fixlen` decision of wire length 2 at the end
of a 1-octet buffer raises the fatal error, via `execute_bounds_spec`. -/
theorem execute_bounds_spec_witness :
    execute_decision ⟨DecisionType.transfer_fixlen, 2, 4, 0⟩ [0] 1 0 machine0
      = Except.error FormatErr.fixlenIELengthBeyondBuffer :=
  (execute_bounds_spec _ [0] 1 0 machine0).1 (Or.inl rfl) (by decide)

/-! ## C8: skip coalescing -/

lemma skipLengthSum_cons (d : Decision) (l : List Decision) :
    skipLengthSum (d :: l)
      = (if d.type = DecisionType.skip_fixlen then d.length else 0)
        + skipLengthSum l := by
  unfold skipLengthSum
  rw [List.filter_cons]
  by_cases hd : d.type = DecisionType.skip_fixlen
  · simp [hd]
  · simp [hd]

lemma skipLengthSum_skip_cons (n : Nat) (l : List Decision) :
    skipLengthSum (⟨DecisionType.skip_fixlen, n, 0, 0⟩ :: l)
      = n + skipLengthSum l := by
  rw [skipLengthSum_cons, if_pos rfl]

lemma coalesce_chain_aux :
    ∀ (n : Nat) (l : List Decision), l.length ≤ n →
      List.Chain' (fun a b => ¬ (a.type = DecisionType.skip_fixlen
        ∧ b.type = DecisionType.skip_fixlen)) (coalesce l)
      ∧ ∀ acc, List.Chain' (fun a b => ¬ (a.type = DecisionType.skip_fixlen
        ∧ b.type = DecisionType.skip_fixlen)) (coalesceRun acc l) := by
  intro n
  induction n with
  | zero =>
    intro l hl
    have hnil : l = [] := List.eq_nil_of_length_eq_zero (by omega)
    subst hnil
    exact ⟨List.chain'_nil, fun acc => List.chain'_singleton _⟩
  | succ n ih =>
    intro l hl
    cases l with
    | nil => exact ⟨List.chain'_nil, fun acc => List.chain'_singleton _⟩
    | cons d rest =>
      have hrest : rest.length ≤ n := by
        simp only [List.length_cons] at hl; omega
      obtain ⟨ihc, ihr⟩ := ih rest hrest
      constructor
      · by_cases hd : d.type = DecisionType.skip_fixlen
        · simp only [coalesce, if_pos hd]
          exact ihr d.length
        · simp only [coalesce, if_neg hd]
          refine List.Chain'.cons' ihc ?_
          intro y _
          exact fun hc => hd hc.1
      · intro acc
        by_cases hd : d.type = DecisionType.skip_fixlen
        · simp only [coalesceRun, if_pos hd]
          exact ihr ((acc + d.length) % 65536)
        · simp only [coalesceRun, if_neg hd]
          refine List.Chain'.cons' (List.Chain'.cons' ihc ?_) ?_
          · intro y _
            exact fun hc => hd hc.1
          · intro y hy
            simp only [List.head?_cons, Option.mem_some_iff] at hy
            subst hy
            exact fun hc => hd hc.2

lemma coalesce_skip_sum_aux :
    ∀ (n : Nat) (l : List Decision), l.length ≤ n →
      skipLengthSum (coalesce l) % 65536 = skipLengthSum l % 65536
      ∧ ∀ acc, skipLengthSum (coalesceRun acc l) % 65536
          = (acc + skipLengthSum l) % 65536 := by
  intro n
  induction n with
  | zero =>
    intro l hl
    have hnil : l = [] := List.eq_nil_of_length_eq_zero (by omega)
    subst hnil
    constructor
    · rfl
    · intro acc
      simp [coalesceRun, skipLengthSum]
  | succ n ih =>
    intro l hl
    cases l with
    | nil =>
      constructor
      · rfl
      · intro acc
        simp [coalesceRun, skipLengthSum]
    | cons d rest =>
      have hrest : rest.length ≤ n := by
        simp only [List.length_cons] at hl; omega
      obtain ⟨ihc, ihr⟩ := ih rest hrest
      constructor
      · by_cases hd : d.type = DecisionType.skip_fixlen
        · simp only [coalesce, if_pos hd]
          rw [ihr d.length, skipLengthSum_cons, if_pos hd]
        · simp only [coalesce, if_neg hd]
          rw [skipLengthSum_cons, skipLengthSum_cons, if_neg hd]
          omega
      · intro acc
        by_cases hd : d.type = DecisionType.skip_fixlen
        · simp only [coalesceRun, if_pos hd]
          rw [ihr ((acc + d.length) % 65536), skipLengthSum_cons, if_pos hd]
          omega
        · simp only [coalesceRun, if_neg hd]
          rw [skipLengthSum_skip_cons, skipLengthSum_cons, skipLengthSum_cons,
            if_neg hd]
          omega

/-- C8 counterexample: the claim says the coalesced `skip_fixlen`'s
length is the sum of the run's lengths, but the source accumulates in
`uint16_t`: two unplaced fixed-length 40000-octet fields compile to a
single skip of length `(40000 + 40000) mod 2^16 = 14464`, not 80000. -/
theorem skip_coalescing_counterexample :
    buildPlan [] [⟨0, 1, IETypeKind.kOctetArray, 40000⟩,
        ⟨0, 2, IETypeKind.kOctetArray, 40000⟩]
      = Except.ok [⟨DecisionType.skip_fixlen, 14464, 0, 0⟩]
    ∧ (14464 : Nat) ≠ 40000 + 40000 :=
  ⟨rfl, by decide⟩

/-- C8 (amended): in every compiled `DecodePlan` no two adjacent
decisions are both `skip_fixlen` — the coalescing pass merges each
maximal run of consecutive `skip_fixlen` decisions into one whose
length is the sum of the run's lengths reduced modulo 2^16 (the
`uint16_t` accumulator), so the total skipped length is preserved
modulo 2^16 (and exactly whenever the sums stay below 2^16, as in the
2, 4, 8 → 14 example). -/
theorem decode_plan_skip_coalescing :
    (∀ (pt : List (InfoElement × Nat)) (wt : List InfoElement)
        (plan : List Decision),
      buildPlan pt wt = Except.ok plan →
      List.Chain' (fun a b => ¬ (a.type = DecisionType.skip_fixlen
        ∧ b.type = DecisionType.skip_fixlen)) plan)
    ∧ (∀ l : List Decision,
        skipLengthSum (coalesce l) % 65536 = skipLengthSum l % 65536) := by
  constructor
  · intro pt wt plan h
    unfold buildPlan at h
    cases hm : wt.mapM (buildDecision pt) with
    | error e =>
      rw [hm] at h
      simp [Except.map] at h
    | ok raw =>
      rw [hm] at h
      simp only [Except.map] at h
      injection h with h'
      rw [← h']
      exact (coalesce_chain_aux raw.length raw le_rfl).1
  · intro l
    exact (coalesce_skip_sum_aux l.length l le_rfl).1

/-- C8 witness: three consecutive unplaced fixed-length fields of widths
2, 4 and 8 compile to a single `skip_fixlen` of length 14, and the
compiled plan has no adjacent `skip_fixlen` pair. -/
theorem decode_plan_skip_coalescing_witness :
    buildPlan [] [⟨0, 1, IETypeKind.kUnsigned16, 2⟩,
        ⟨0, 2, IETypeKind.kUnsigned32, 4⟩, ⟨0, 3, IETypeKind.kUnsigned64, 8⟩]
      = Except.ok [⟨DecisionType.skip_fixlen, 14, 0, 0⟩]
    ∧ List.Chain' (fun a b : Decision => ¬ (a.type = DecisionType.skip_fixlen
        ∧ b.type = DecisionType.skip_fixlen))
        ([⟨DecisionType.skip_fixlen, 14, 0, 0⟩] : List Decision) := by
  constructor
  · rfl
  · exact decode_plan_skip_coalescing.1 []
      [⟨0, 1, IETypeKind.kUnsigned16, 2⟩, ⟨0, 2, IETypeKind.kUnsigned32, 4⟩,
        ⟨0, 3, IETypeKind.kUnsigned64, 8⟩]
      [⟨DecisionType.skip_fixlen, 14, 0, 0⟩] rfl

/-! ## C7: message-header validation -/

end libfc
